import Mathlib

/-!
Verification of the vaksi maubot plugin (src/vaksi/__init__.py).

The plugin correlates outbound requests on a shared channel with inbound
replies.  Per channel it keeps a FIFO queue of pending `(action, future)`
pairs (`self.queues`) and a single active completion handle
(`self.sinks`).  We embed the per-channel state as `Chan`, recording the
side effects the Python code performs (task creation, future resolution)
in an explicit action log.
-/

namespace Vaksi

/-- The exception values the plugin creates: `BotException(msg)`,
`SlackException(msg)`, and `MatrixStandardRequestError` (raised by the
mautrix client, carrying `e.message`). -/
inductive Exn where
  | bot (msg : String)
  | slack (msg : String)
  | matrix (msg : String)
deriving DecidableEq

/-- Side effects of the channel code, in program order:
`dispatch r` is `asyncio.create_task(act)` for request `r` (the moment
a queued request starts executing), `clear r` is the assignment
`self.sinks[q] = None` while `r` occupied the slot, `setResult` and
`setException` are the `Future.set_result` / `Future.set_exception`
calls on request `r`'s future. -/
inductive Action where
  | dispatch (r : Nat)
  | clear (r : Nat)
  | setResult (r : Nat) (v : String)
  | setException (r : Nat) (e : Exn)
deriving DecidableEq

/-- State of one named channel.  `sequential` creates one fresh
`asyncio.Future` per call; we name futures (and their paired actions)
by creation order, so the `k`-th `sequential` call on a channel owns
request id `k`.  `queue` is `self.queues[name]` (ids of the queued
`(act, future)` pairs, head = oldest), `sink` is `self.sinks[name]`,
`next` counts the futures created so far (the next fresh id), and
`log` is the list of side effects performed so far. -/
structure Chan where
  queue : List Nat
  sink : Option Nat
  next : Nat
  log : List Action
deriving DecidableEq

/-- Channel state at plugin start: empty queue, no sink. -/
def init : Chan := { queue := [], sink := none, next := 0, log := [] }

/-- `try_fire`: if the sink is occupied, return (still processing the
previous request); if the queue is empty, return; otherwise pop the head
`(act, sink)` pair, install its future as the sink and create the task
for its action. -/
def try_fire (s : Chan) : Chan :=
  match s.sink with
  | some _ => s
  | none =>
    match s.queue with
    | [] => s
    | r :: rest =>
      { s with queue := rest, sink := some r, log := s.log ++ [Action.dispatch r] }

/-- `sequential`: create a fresh future, append the `(act, future)` pair
to the queue, call `try_fire`, and return the future to the caller. -/
def sequential (s : Chan) : Nat × Chan :=
  (s.next, try_fire { s with queue := s.queue ++ [s.next], next := s.next + 1 })

/-- `match_request`: if the event's sender differs from the configured
bridge user, ignore the message and return `None`.  Otherwise read the
sink; if it is `None` the reply is unexpected and ignored, else clear
the sink, run `try_fire` to start the next queued request, and return
the saved sink to the caller. -/
def match_request (correct sender : String) (s : Chan) : Option Nat × Chan :=
  if sender ≠ correct then (none, s)
  else
    match s.sink with
    | none => (none, s)
    | some r => (some r, try_fire { s with sink := none, log := s.log ++ [Action.clear r] })

/-- Body of the `collect_error` handler once its pattern has matched,
with `reason` the first capture group: call `match_request` and, if it
returned a future, set `SlackException(reason)` on it. -/
def collect_error (correct sender reason : String) (s : Chan) : Chan :=
  match match_request correct sender s with
  | (some r, s1) => { s1 with log := s1.log ++ [Action.setException r (Exn.slack reason)] }
  | (none, s1) => s1

/-- Body of the `collect_room_id` handler once its pattern has matched,
with `roomId` the first capture group: call `match_request` and, if it
returned a future, set `roomId` as its result. -/
def collect_room_id (correct sender roomId : String) (s : Chan) : Chan :=
  match match_request correct sender s with
  | (some r, s1) => { s1 with log := s1.log ++ [Action.setResult r roomId] }
  | (none, s1) => s1

/-- The error set on every queued future drained by `panic_flush`. -/
def abandonedExn : Exn := Exn.bot "Panic flush due to previous timeout"

/-- `panic_flush`: set the sink to `None` (without resolving it), then
pop every queued pair and set `BotException("Panic flush due to
previous timeout")` on its future. -/
def panic_flush (s : Chan) : Chan :=
  { queue := [], sink := none, next := s.next,
    log := s.log
      ++ (match s.sink with | some r => [Action.clear r] | none => [])
      ++ s.queue.map (fun r => Action.setException r abandonedExn) }

end Vaksi

namespace Vaksi

/-!
The two passive-command patterns, compiled from the Python regexes with
`re.search` semantics (`.` does not match a newline; `$` matches at the
end of the string or just before one trailing newline; greedy `.*`).
We model them as functions from the message body to the optional first
capture group.
-/

/-- Check that `p` is a leading segment of `l` (character lists). -/
def startsWithL : List Char → List Char → Bool
  | [], _ => true
  | _ :: _, [] => false
  | p :: ps, c :: cs => p == c && startsWithL ps cs

/-- Suffix following the last occurrence of the two-character sequence
`": "`, if any (the greedy `.*` before `": "` commits to the last
occurrence). -/
def afterLastColonSpace : List Char → Option (List Char)
  | [] => none
  | [_] => none
  | a :: b :: rest =>
    match afterLastColonSpace (b :: rest) with
    | some r => some r
    | none => if a == ':' && b == ' ' then some rest else none

/-- Suffix following the first occurrence of `p`, if any (`re.search`
commits to the leftmost viable start). -/
def afterFirst (p : List Char) : List Char → Option (List Char)
  | [] => none
  | c :: cs =>
    if startsWithL p (c :: cs) then some ((c :: cs).drop p.length)
    else afterFirst p cs

/-- Suffix of `l` starting at its last `'!'` character, if any (the
greedy `.*` before the group `(!.*)` commits to the last `'!'`). -/
def fromLastBang : List Char → Option (List Char)
  | [] => none
  | c :: cs =>
    match fromLastBang cs with
    | some r => some r
    | none => if c == '!' then some (c :: cs) else none

/-- Remove one trailing newline: the positions admitted by `$` without
`re.MULTILINE` are the end of the string and just before a final
newline. -/
def dollarCore (s : List Char) : List Char :=
  if s.getLast? = some '\n' then s.dropLast else s

/-- Characters after the last newline of `l` (a match of an
unanchored pattern whose `.` cannot cross newlines and that ends at
`$` lies entirely in the last line). -/
def lastLineOf : List Char → List Char
  | [] => []
  | c :: cs => if cs.contains '\n' || c == '\n' then lastLineOf cs else c :: cs

/-- The pattern of `collect_error`: `^Failed.*: (.*)$` under
`re.search`.  A match must start at position 0, lie in a single line
covering the whole `$`-trimmed body, begin with `Failed`, and the
greedy `.*` commits to the last `": "`; the capture is what follows
it. -/
def collect_error_match (body : String) : Option String :=
  let core := dollarCore body.toList
  if core.contains '\n' then none
  else if startsWithL "Failed".toList core then
    (afterLastColonSpace (core.drop 6)).map (fun r => String.mk r)
  else none

/-- The pattern of `collect_room_id`: `chat with .*(!.*)\)$` under
`re.search`.  The match lies in the last line, the line must end with
`)`, an occurrence of `chat with ` must be followed (after its end) by
a `!` before the final `)`, and the capture runs from the last such `!`
up to (excluding) the final `)`. -/
def collect_room_id_match (body : String) : Option String :=
  let core := dollarCore body.toList
  let line := lastLineOf core
  match line.getLast? with
  | some ')' =>
    match afterFirst "chat with ".toList line.dropLast with
    | some t => (fromLastBang t).map (fun r => String.mk r)
    | none => none
  | _ => none

/-- One inbound notice-type message delivered to the plugin's passive
handlers.  maubot checks each passive handler's pattern against the
message independently and invokes every handler whose pattern matches,
in declaration order (`collect_error` is declared before
`collect_room_id`); a handler whose pattern does not match is not
invoked.  `observe_error` is the first pass: run `collect_error` when
its pattern matches the body. -/
def observe_error (correct sender body : String) (s : Chan) : Chan :=
  match collect_error_match body with
  | some reason => collect_error correct sender reason s
  | none => s

/-- Full effect of delivering one message: the `collect_room_id`
handler (when its pattern matches) runs on the state left by the
`collect_error` handler. -/
def observe (correct sender body : String) (s : Chan) : Chan :=
  match collect_room_id_match body with
  | some v => collect_room_id correct sender v (observe_error correct sender body s)
  | none => observe_error correct sender body s

/-- External stimuli of one channel: a `sequential` call (a new
request), an inbound message (sender and body), or a caller's
`asyncio.timeout` elapsing, which runs `panic_flush`. -/
inductive Event where
  | submit
  | reply (sender body : String)
  | timeout
deriving DecidableEq

/-- Effect of one event on the channel state. -/
def step (correct : String) (s : Chan) (e : Event) : Chan :=
  match e with
  | Event.submit => (sequential s).2
  | Event.reply sender body => observe correct sender body s
  | Event.timeout => panic_flush s

/-- Channel state after a sequence of events, starting from `init`. -/
def run (correct : String) (evs : List Event) : Chan :=
  evs.foldl (step correct) init

/-- Number of `submit` events in a trace. -/
def submitCount : List Event → Nat
  | [] => 0
  | Event.submit :: es => submitCount es + 1
  | _ :: es => submitCount es

/-- `find_matrix_pm`: read the `m.direct` account data (a map from a
matrix id to the list of direct rooms with it), take the entry for
`mxid`; if it is absent or the empty list return `None`, otherwise the
last room of the list. -/
def find_matrix_pm (all_dms : List (String × List String)) (mxid : String) : Option String :=
  match all_dms.lookup mxid with
  | none => none
  | some [] => none
  | some (x :: xs) => (x :: xs).getLast?

/-- What `open_slack_pm` decides before any await: either it raises
`BotException("No PM open with the Slack bot")` without touching the
queue, or it will send `!slack start-chat <id>` into the room found
with the bridge bot, enqueue that action via `sequential` and await the
future under `asyncio.timeout`. -/
inductive PmPlan where
  | noPmFailure (e : Exn)
  | submitAndAwait (target command : String)
deriving DecidableEq

/-- Control flow of `open_slack_pm` up to the `sequential` call:
look up the direct room with the configured bridge bot
(`config["bridges.slack"]`); if none is found, fail; otherwise build
the `!slack start-chat` command for that room and submit it. -/
def open_slack_pm_plan (all_dms : List (String × List String))
    (bridge_bot slack_id : String) : PmPlan :=
  match find_matrix_pm all_dms bridge_bot with
  | none => PmPlan.noPmFailure (Exn.bot "No PM open with the Slack bot")
  | some appserv => PmPlan.submitAndAwait appserv ("!slack start-chat " ++ slack_id)

/-- Whether the plan reaches `Correlator.submit` (the `sequential`
call). -/
def plan_submits : PmPlan → Bool
  | PmPlan.noPmFailure _ => false
  | PmPlan.submitAndAwait _ _ => true

/-- The `except TimeoutError` branch of `open_slack_pm`: run
`panic_flush` on the channel, then raise `BotException("Timeout while
communicating with the bot")` to the awaiting caller. -/
def open_slack_pm_on_timeout (s : Chan) : Chan × Exn :=
  (panic_flush s, Exn.bot "Timeout while communicating with the bot")

/-- `auth`: reject with `BotException` if the `authorization` header is
missing, if the configured token list is empty, or if the header value
is not among the tokens; otherwise accept (return without raising). -/
def auth (key : Option String) (valids : List String) : Option Exn :=
  match key with
  | none => some (Exn.bot "Authorization header missing")
  | some k =>
    if valids.isEmpty then some (Exn.bot "No authentication tokens configured")
    else if k ∈ valids then none
    else some (Exn.bot "Unauthorized")

/-- The exception-to-JSON mapping shared by the web handlers' `except`
clauses: `MatrixStandardRequestError` yields source `matrix`,
`BotException` source `bot`, `SlackException` source `slack`, each with
the exception's message.  We model a JSON object as its list of
key-value pairs in emission order. -/
def exn_error_response : Exn → List (String × String)
  | Exn.matrix m => [("error", m), ("source", "matrix")]
  | Exn.bot m => [("error", m), ("source", "bot")]
  | Exn.slack m => [("error", m), ("source", "slack")]

/-- Message carried by an exception value. -/
def exn_message : Exn → String
  | Exn.matrix m => m
  | Exn.bot m => m
  | Exn.slack m => m

/-- Source tag the web handlers attach to an exception value. -/
def exn_source : Exn → String
  | Exn.matrix _ => "matrix"
  | Exn.bot _ => "bot"
  | Exn.slack _ => "slack"

/-- Response body of `GET /direct/slack/{id}`: `{"room": room_id}` on
success, else the error mapping. -/
def web_slack_find_pm_response : Except Exn String → List (String × String)
  | Except.ok room => [("room", room)]
  | Except.error e => exn_error_response e

/-- Response body of `POST /direct/slack/{id}`: `{"room": room_id,
"event": event_id}` on success, else the error mapping. -/
def web_slack_pm_response : Except Exn (String × String) → List (String × String)
  | Except.ok (room, event) => [("room", room), ("event", event)]
  | Except.error e => exn_error_response e

/-- The `try: self.auth(req); ...` skeleton common to the web handlers:
if `auth` raises, the handler returns the error response without
running its body, leaving the channel state untouched; otherwise the
body runs. -/
def web_guarded (key : Option String) (valids : List String) (s : Chan)
    (body : Chan → Chan × List (String × String)) : Chan × List (String × String) :=
  match auth key valids with
  | some e => (s, exn_error_response e)
  | none => body s

/-- Ids of the `create_task` calls in a log, in program order. -/
def dispatchedIds : List Action → List Nat
  | [] => []
  | Action.dispatch r :: l => r :: dispatchedIds l
  | _ :: l => dispatchedIds l

/-- Number of requests in flight after a list of actions: `dispatch`
puts one request in flight, `clear` takes the request occupying the
slot out of flight (its reply has been observed or it has been
flushed). -/
def flight : List Action → Int
  | [] => 0
  | Action.dispatch _ :: l => 1 + flight l
  | Action.clear _ :: l => -1 + flight l
  | _ :: l => flight l

end Vaksi

namespace Vaksi

/-! Basic lemmas about the action log. -/

theorem dispatchedIds_append (l₁ l₂ : List Action) :
    dispatchedIds (l₁ ++ l₂) = dispatchedIds l₁ ++ dispatchedIds l₂ := by
  induction l₁ with
  | nil => rfl
  | cons a l ih => cases a <;> simp [dispatchedIds, ih]

theorem flight_append (l₁ l₂ : List Action) :
    flight (l₁ ++ l₂) = flight l₁ + flight l₂ := by
  induction l₁ with
  | nil => simp [flight]
  | cons a l ih => cases a <;> simp [flight, ih] <;> ring

theorem dispatchedIds_map_setException (q : List Nat) (e : Exn) :
    dispatchedIds (q.map fun r => Action.setException r e) = [] := by
  induction q with
  | nil => rfl
  | cons a q ih => simpa [dispatchedIds] using ih

theorem flight_map_setException (q : List Nat) (e : Exn) :
    flight (q.map fun r => Action.setException r e) = 0 := by
  induction q with
  | nil => rfl
  | cons a q ih => simpa [flight] using ih

theorem flight_take_map_setException (q : List Nat) (e : Exn) (k : Nat) :
    flight ((q.map fun r => Action.setException r e).take k) = 0 := by
  rw [← List.map_take]
  exact flight_map_setException _ _

/-- Every prefix of the log keeps at most one request in flight. -/
def FlightBounded (l : List Action) : Prop := ∀ n, flight (l.take n) ≤ 1

theorem flightBounded_append {l l' : List Action} (h : FlightBounded l)
    (h' : ∀ n, flight l + flight (l'.take n) ≤ 1) : FlightBounded (l ++ l') := by
  intro n
  rw [List.take_append_eq_append_take, flight_append]
  rcases Nat.le_total n l.length with hn | hn
  · have h0 : l'.take (n - l.length) = ([] : List Action) := by
      have hz : n - l.length = 0 := Nat.sub_eq_zero_of_le hn
      simp [hz]
    rw [h0]
    simpa [flight] using h n
  · rw [List.take_of_length_le hn]
    exact h' (n - l.length)

/-! Shapes of the operations, by case on the sink and queue. -/

theorem try_fire_of_sink_some {s : Chan} {r : Nat} (h : s.sink = some r) :
    try_fire s = s := by
  simp [try_fire, h]

theorem sequential_of_sink_some {s : Chan} {r : Nat} (h : s.sink = some r) :
    (sequential s).2 = { s with queue := s.queue ++ [s.next], next := s.next + 1 } := by
  simp [sequential, try_fire, h]

theorem sequential_of_sink_none_nil {s : Chan} (h : s.sink = none) (hq : s.queue = []) :
    (sequential s).2 =
      { queue := [], sink := some s.next, next := s.next + 1,
        log := s.log ++ [Action.dispatch s.next] } := by
  simp [sequential, try_fire, h, hq]

theorem sequential_of_sink_none_cons {s : Chan} {a : Nat} {rest : List Nat}
    (h : s.sink = none) (hq : s.queue = a :: rest) :
    (sequential s).2 =
      { queue := rest ++ [s.next], sink := some a, next := s.next + 1,
        log := s.log ++ [Action.dispatch a] } := by
  simp [sequential, try_fire, h, hq]

theorem match_request_wrong_sender {correct sender : String} (h : sender ≠ correct)
    (s : Chan) : match_request correct sender s = (none, s) := by
  simp [match_request, h]

theorem match_request_no_sink {correct sender : String} {s : Chan} (h : s.sink = none) :
    match_request correct sender s = (none, s) := by
  by_cases hs : sender ≠ correct <;> simp [match_request, hs, h]

theorem collect_room_id_wrong_sender {correct sender : String} (h : sender ≠ correct)
    (v : String) (s : Chan) : collect_room_id correct sender v s = s := by
  simp [collect_room_id, match_request_wrong_sender h]

theorem collect_room_id_no_sink {correct sender v : String} {s : Chan}
    (h : s.sink = none) : collect_room_id correct sender v s = s := by
  simp [collect_room_id, match_request_no_sink h]

theorem collect_error_wrong_sender {correct sender : String} (h : sender ≠ correct)
    (reason : String) (s : Chan) : collect_error correct sender reason s = s := by
  simp [collect_error, match_request_wrong_sender h]

theorem collect_error_no_sink {correct sender reason : String} {s : Chan}
    (h : s.sink = none) : collect_error correct sender reason s = s := by
  simp [collect_error, match_request_no_sink h]

theorem collect_room_id_some_nil {correct v : String} {s : Chan} {r : Nat}
    (h : s.sink = some r) (hq : s.queue = []) :
    collect_room_id correct correct v s =
      { s with sink := none, log := s.log ++ [Action.clear r, Action.setResult r v] } := by
  simp [collect_room_id, match_request, try_fire, h, hq]

theorem collect_room_id_some_cons {correct v : String} {s : Chan} {r a : Nat}
    {rest : List Nat} (h : s.sink = some r) (hq : s.queue = a :: rest) :
    collect_room_id correct correct v s =
      { queue := rest, sink := some a, next := s.next,
        log := s.log ++ [Action.clear r, Action.dispatch a, Action.setResult r v] } := by
  simp [collect_room_id, match_request, try_fire, h, hq]

theorem collect_error_some_nil {correct reason : String} {s : Chan} {r : Nat}
    (h : s.sink = some r) (hq : s.queue = []) :
    collect_error correct correct reason s =
      { s with sink := none,
               log := s.log
                 ++ [Action.clear r, Action.setException r (Exn.slack reason)] } := by
  simp [collect_error, match_request, try_fire, h, hq]

theorem collect_error_some_cons {correct reason : String} {s : Chan} {r a : Nat}
    {rest : List Nat} (h : s.sink = some r) (hq : s.queue = a :: rest) :
    collect_error correct correct reason s =
      { queue := rest, sink := some a, next := s.next,
        log := s.log ++ [Action.clear r, Action.dispatch a,
          Action.setException r (Exn.slack reason)] } := by
  simp [collect_error, match_request, try_fire, h, hq]

theorem panic_flush_of_sink_some {s : Chan} {r : Nat} (h : s.sink = some r) :
    panic_flush s =
      { queue := [], sink := none, next := s.next,
        log := s.log ++ [Action.clear r]
          ++ s.queue.map (fun x => Action.setException x abandonedExn) } := by
  simp [panic_flush, h]

theorem panic_flush_of_sink_none {s : Chan} (h : s.sink = none) :
    panic_flush s =
      { queue := [], sink := none, next := s.next,
        log := s.log ++ s.queue.map (fun x => Action.setException x abandonedExn) } := by
  simp [panic_flush, h]

end Vaksi

namespace Vaksi

theorem chain'_append_singleton {l : List Nat} {x : Nat}
    (h : List.Chain' (· < ·) l) (hx : ∀ r ∈ l, r < x) :
    List.Chain' (· < ·) (l ++ [x]) := by
  rw [List.chain'_append]
  refine ⟨h, List.chain'_singleton x, ?_⟩
  intro a ha y hy
  have ha' : a ∈ l := List.mem_of_mem_getLast? ha
  have hyx : x = y := by simpa using hy
  exact hyx ▸ hx a ha'

/-- Inductive invariant of a channel state: the queue holds the most
recently created ids, consecutively and in creation order; every
dispatched id precedes every queued id; ids are dispatched in strictly
increasing (i.e. FIFO submission) order; the log's flight count equals
the occupancy of the sink; and no prefix of the log ever has more than
one request in flight. -/
structure Inv (s : Chan) : Prop where
  hq : s.queue = List.range' (s.next - s.queue.length) s.queue.length
  hqle : s.queue.length ≤ s.next
  hd : ∀ r ∈ dispatchedIds s.log, r < s.next - s.queue.length
  hsorted : List.Chain' (· < ·) (dispatchedIds s.log)
  hflight : flight s.log = if s.sink.isSome then 1 else 0
  hbound : FlightBounded s.log
  hslt : ∀ r, s.sink = some r → r < s.next - s.queue.length

theorem inv_init : Inv init := by
  refine ⟨?_, ?_, ?_, ?_, ?_, ?_, ?_⟩ <;>
    simp [init, dispatchedIds, flight, FlightBounded, List.range']

theorem inv_shape_enqueue {s : Chan} (hI : Inv s) :
    Inv { s with queue := s.queue ++ [s.next], next := s.next + 1 } := by
  obtain ⟨hq, hqle, hd, hsorted, hflight, hbound, hslt⟩ := hI
  refine ⟨?_, ?_, ?_, ?_, ?_, ?_, ?_⟩
  · show s.queue ++ [s.next]
      = List.range' (s.next + 1 - (s.queue ++ [s.next]).length) (s.queue ++ [s.next]).length
    rw [List.length_append, List.length_singleton,
      show s.next + 1 - (s.queue.length + 1) = s.next - s.queue.length from by omega,
      List.range'_concat, one_mul, Nat.sub_add_cancel hqle, ← hq]
  · show (s.queue ++ [s.next]).length ≤ s.next + 1
    rw [List.length_append, List.length_singleton]
    omega
  · show ∀ r ∈ dispatchedIds s.log, r < s.next + 1 - (s.queue ++ [s.next]).length
    intro x hx
    have hlt := hd x hx
    rw [List.length_append, List.length_singleton]
    omega
  · exact hsorted
  · exact hflight
  · exact hbound
  · show ∀ r, s.sink = some r → r < s.next + 1 - (s.queue ++ [s.next]).length
    intro r hr
    have := hslt r hr
    rw [List.length_append, List.length_singleton]
    omega

theorem flight_take_pair_le (a b : Action) (hb : flight [a, b] ≤ 0)
    (ha : flight [a] ≤ 0) (m : Nat) : flight ([a, b].take m) ≤ 0 := by
  rcases m with _ | m
  · simp [flight]
  · rcases m with _ | m
    · simpa [flight] using ha
    · have : ([a, b].take (m + 1 + 1)) = [a, b] := by
        apply List.take_of_length_le
        simp
      rw [this]
      exact hb

theorem inv_shape_fire_fresh {s : Chan} (hI : Inv s) (hs0 : s.sink = none) :
    Inv { queue := [], sink := some s.next, next := s.next + 1,
          log := s.log ++ [Action.dispatch s.next] } := by
  obtain ⟨hq, hqle, hd, hsorted, hflight, hbound, hslt⟩ := hI
  have hflight0 : flight s.log = 0 := by rw [hflight, hs0]; rfl
  have hd' : ∀ x ∈ dispatchedIds s.log, x < s.next := by
    intro x hx
    have := hd x hx
    omega
  have hdisp : dispatchedIds (s.log ++ [Action.dispatch s.next])
      = dispatchedIds s.log ++ [s.next] := by
    rw [dispatchedIds_append]; rfl
  refine ⟨?_, ?_, ?_, ?_, ?_, ?_, ?_⟩
  · show ([] : List Nat) = List.range' (s.next + 1 - List.length ([] : List Nat)) 0
    rfl
  · show List.length ([] : List Nat) ≤ s.next + 1
    simp
  · show ∀ r ∈ dispatchedIds (s.log ++ [Action.dispatch s.next]),
      r < s.next + 1 - List.length ([] : List Nat)
    intro x hx
    rw [hdisp] at hx
    rcases List.mem_append.1 hx with hx | hx
    · have := hd' x hx
      simp only [List.length_nil]
      omega
    · have : x = s.next := by simpa using hx
      simp only [List.length_nil]
      omega
  · show List.Chain' (· < ·) (dispatchedIds (s.log ++ [Action.dispatch s.next]))
    rw [hdisp]
    exact chain'_append_singleton hsorted hd'
  · show flight (s.log ++ [Action.dispatch s.next]) = 1
    rw [flight_append, hflight0]
    rfl
  · show FlightBounded (s.log ++ [Action.dispatch s.next])
    refine flightBounded_append hbound ?_
    intro m
    rw [hflight0]
    rcases m with _ | m
    · simp [flight]
    · have : ([Action.dispatch s.next].take (m + 1)) = [Action.dispatch s.next] := by
        apply List.take_of_length_le
        simp
      rw [this]
      simp [flight]
  · show ∀ r, some s.next = some r → r < s.next + 1 - List.length ([] : List Nat)
    intro r hr
    injection hr with h
    simp only [List.length_nil]
    omega

end Vaksi

namespace Vaksi

theorem inv_shape_fire_next {s : Chan} (hI : Inv s) (hs0 : s.sink = none)
    {a : Nat} {rest : List Nat} (hqc : s.queue = a :: rest) :
    Inv { queue := rest ++ [s.next], sink := some a, next := s.next + 1,
          log := s.log ++ [Action.dispatch a] } := by
  obtain ⟨hq, hqle, hd, hsorted, hflight, hbound, hslt⟩ := hI
  have hflight0 : flight s.log = 0 := by rw [hflight, hs0]; rfl
  have hlen : s.queue.length = rest.length + 1 := by rw [hqc]; rfl
  rw [hlen] at hq
  rw [hqc] at hq
  rw [List.range'_succ] at hq
  injection hq with ha hrest
  rw [hlen] at hqle hd
  have hd' : ∀ x ∈ dispatchedIds s.log, x < a := by
    intro x hx
    have := hd x hx
    omega
  have hdisp : dispatchedIds (s.log ++ [Action.dispatch a])
      = dispatchedIds s.log ++ [a] := by
    rw [dispatchedIds_append]; rfl
  refine ⟨?_, ?_, ?_, ?_, ?_, ?_, ?_⟩
  · show rest ++ [s.next]
      = List.range' (s.next + 1 - (rest ++ [s.next]).length) (rest ++ [s.next]).length
    rw [List.length_append, List.length_singleton,
      show s.next + 1 - (rest.length + 1) = s.next - (rest.length + 1) + 1 from by omega,
      List.range'_concat, one_mul, ← hrest,
      show s.next - (rest.length + 1) + 1 + rest.length = s.next from by omega]
  · show (rest ++ [s.next]).length ≤ s.next + 1
    rw [List.length_append, List.length_singleton]
    omega
  · show ∀ x ∈ dispatchedIds (s.log ++ [Action.dispatch a]),
      x < s.next + 1 - (rest ++ [s.next]).length
    intro x hx
    rw [hdisp] at hx
    rw [List.length_append, List.length_singleton]
    rcases List.mem_append.1 hx with hx | hx
    · have := hd' x hx
      omega
    · have hxa : x = a := by simpa using hx
      omega
  · show List.Chain' (· < ·) (dispatchedIds (s.log ++ [Action.dispatch a]))
    rw [hdisp]
    exact chain'_append_singleton hsorted hd'
  · show flight (s.log ++ [Action.dispatch a]) = 1
    rw [flight_append, hflight0]
    rfl
  · show FlightBounded (s.log ++ [Action.dispatch a])
    refine flightBounded_append hbound ?_
    intro m
    rw [hflight0]
    rcases m with _ | m
    · simp [flight]
    · rw [List.take_of_length_le (by simp)]
      simp [flight]
  · show ∀ x, some a = some x → x < s.next + 1 - (rest ++ [s.next]).length
    intro x hx
    injection hx with h
    rw [List.length_append, List.length_singleton]
    omega

theorem inv_shape_resolve_nil {s : Chan} (hI : Inv s) {r : Nat} (hs : s.sink = some r)
    (act : Action) (hact1 : dispatchedIds [act] = []) (hact2 : flight [act] = 0) :
    Inv { s with sink := none, log := s.log ++ [Action.clear r, act] } := by
  obtain ⟨hq, hqle, hd, hsorted, hflight, hbound, hslt⟩ := hI
  have hflight1 : flight s.log = 1 := by rw [hflight, hs]; rfl
  have hfl : flight [Action.clear r, act] = -1 := by
    simp [flight, show flight [act] = 0 from hact2]
  have hdisp : dispatchedIds (s.log ++ [Action.clear r, act]) = dispatchedIds s.log := by
    rw [dispatchedIds_append]
    simp [dispatchedIds, hact1]
  refine ⟨?_, ?_, ?_, ?_, ?_, ?_, ?_⟩
  · exact hq
  · exact hqle
  · show ∀ x ∈ dispatchedIds (s.log ++ [Action.clear r, act]),
      x < s.next - s.queue.length
    intro x hx
    rw [hdisp] at hx
    exact hd x hx
  · show List.Chain' (· < ·) (dispatchedIds (s.log ++ [Action.clear r, act]))
    rw [hdisp]
    exact hsorted
  · show flight (s.log ++ [Action.clear r, act]) = 0
    rw [flight_append, hflight1, hfl]
    ring
  · show FlightBounded (s.log ++ [Action.clear r, act])
    refine flightBounded_append hbound ?_
    intro m
    rw [hflight1]
    have hle : flight (([Action.clear r, act]).take m) ≤ 0 := by
      rcases m with _ | _ | m
      · simp [flight]
      · simp [flight]
      · rw [List.take_of_length_le (by simp)]
        rw [hfl]
        omega
    omega
  · exact fun x hx => Option.noConfusion hx

theorem inv_shape_resolve_cons {s : Chan} (hI : Inv s) {r a : Nat} {rest : List Nat}
    (hs : s.sink = some r) (hqc : s.queue = a :: rest)
    (act : Action) (hact1 : dispatchedIds [act] = []) (hact2 : flight [act] = 0) :
    Inv { queue := rest, sink := some a, next := s.next,
          log := s.log ++ [Action.clear r, Action.dispatch a, act] } := by
  obtain ⟨hq, hqle, hd, hsorted, hflight, hbound, hslt⟩ := hI
  have hflight1 : flight s.log = 1 := by rw [hflight, hs]; rfl
  have hlen : s.queue.length = rest.length + 1 := by rw [hqc]; rfl
  rw [hlen] at hq
  rw [hqc] at hq
  rw [List.range'_succ] at hq
  injection hq with ha hrest
  rw [hlen] at hqle hd
  have hd' : ∀ x ∈ dispatchedIds s.log, x < a := by
    intro x hx
    have := hd x hx
    omega
  have hfl : flight [Action.clear r, Action.dispatch a, act] = 0 := by
    simp [flight, show flight [act] = 0 from hact2]
  have hdisp : dispatchedIds (s.log ++ [Action.clear r, Action.dispatch a, act])
      = dispatchedIds s.log ++ [a] := by
    rw [dispatchedIds_append]
    simp [dispatchedIds, hact1]
  refine ⟨?_, ?_, ?_, ?_, ?_, ?_, ?_⟩
  · show rest = List.range' (s.next - rest.length) rest.length
    rw [show s.next - rest.length = s.next - (rest.length + 1) + 1 from by omega]
    exact hrest
  · show rest.length ≤ s.next
    omega
  · show ∀ x ∈ dispatchedIds (s.log ++ [Action.clear r, Action.dispatch a, act]),
      x < s.next - rest.length
    intro x hx
    rw [hdisp] at hx
    rcases List.mem_append.1 hx with hx | hx
    · have := hd' x hx
      omega
    · have hxa : x = a := by simpa using hx
      omega
  · show List.Chain' (· < ·) (dispatchedIds (s.log ++ [Action.clear r, Action.dispatch a, act]))
    rw [hdisp]
    exact chain'_append_singleton hsorted hd'
  · show flight (s.log ++ [Action.clear r, Action.dispatch a, act]) = 1
    rw [flight_append, hflight1, hfl]
    ring
  · show FlightBounded (s.log ++ [Action.clear r, Action.dispatch a, act])
    refine flightBounded_append hbound ?_
    intro m
    rw [hflight1]
    have hle : flight (([Action.clear r, Action.dispatch a, act]).take m) ≤ 0 := by
      rcases m with _ | _ | _ | m
      · simp [flight]
      · simp [flight]
      · simp [flight]
      · rw [List.take_of_length_le (by simp)]
        rw [hfl]
    omega
  · show ∀ x, some a = some x → x < s.next - rest.length
    intro x hx
    injection hx with h
    omega

theorem inv_shape_flush_some {s : Chan} (hI : Inv s) {r : Nat} (hs : s.sink = some r) :
    Inv { queue := [], sink := none, next := s.next,
          log := s.log ++ [Action.clear r]
            ++ s.queue.map (fun x => Action.setException x abandonedExn) } := by
  obtain ⟨hq, hqle, hd, hsorted, hflight, hbound, hslt⟩ := hI
  have hflight1 : flight s.log = 1 := by rw [hflight, hs]; rfl
  have hdisp : dispatchedIds (s.log ++ [Action.clear r]
      ++ s.queue.map (fun x => Action.setException x abandonedExn)) = dispatchedIds s.log := by
    rw [dispatchedIds_append, dispatchedIds_append, dispatchedIds_map_setException]
    simp [dispatchedIds]
  have hbound1 : FlightBounded (s.log ++ [Action.clear r]) := by
    refine flightBounded_append hbound ?_
    intro m
    rw [hflight1]
    rcases m with _ | m
    · simp [flight]
    · rw [List.take_of_length_le (by simp)]
      simp [flight]
  have hfl1 : flight (s.log ++ [Action.clear r]) = 0 := by
    rw [flight_append, hflight1]
    simp [flight]
  refine ⟨?_, ?_, ?_, ?_, ?_, ?_, ?_⟩
  · rfl
  · show List.length ([] : List Nat) ≤ s.next
    simp
  · show ∀ x ∈ dispatchedIds (s.log ++ [Action.clear r]
      ++ s.queue.map (fun y => Action.setException y abandonedExn)),
      x < s.next - List.length ([] : List Nat)
    intro x hx
    rw [hdisp] at hx
    have := hd x hx
    simp only [List.length_nil]
    omega
  · show List.Chain' (· < ·) (dispatchedIds (s.log ++ [Action.clear r]
      ++ s.queue.map (fun y => Action.setException y abandonedExn)))
    rw [hdisp]
    exact hsorted
  · show flight (s.log ++ [Action.clear r]
      ++ s.queue.map (fun y => Action.setException y abandonedExn)) = 0
    rw [flight_append, hfl1, flight_map_setException]
    norm_num
  · show FlightBounded (s.log ++ [Action.clear r]
      ++ s.queue.map (fun y => Action.setException y abandonedExn))
    refine flightBounded_append hbound1 ?_
    intro m
    rw [hfl1, flight_take_map_setException]
    omega
  · exact fun x hx => Option.noConfusion hx

theorem inv_shape_flush_none {s : Chan} (hI : Inv s) (hs : s.sink = none) :
    Inv { queue := [], sink := none, next := s.next,
          log := s.log ++ s.queue.map (fun x => Action.setException x abandonedExn) } := by
  obtain ⟨hq, hqle, hd, hsorted, hflight, hbound, hslt⟩ := hI
  have hflight0 : flight s.log = 0 := by rw [hflight, hs]; rfl
  have hdisp : dispatchedIds (s.log
      ++ s.queue.map (fun x => Action.setException x abandonedExn)) = dispatchedIds s.log := by
    rw [dispatchedIds_append, dispatchedIds_map_setException]
    simp
  refine ⟨?_, ?_, ?_, ?_, ?_, ?_, ?_⟩
  · rfl
  · show List.length ([] : List Nat) ≤ s.next
    simp
  · show ∀ x ∈ dispatchedIds (s.log
      ++ s.queue.map (fun y => Action.setException y abandonedExn)),
      x < s.next - List.length ([] : List Nat)
    intro x hx
    rw [hdisp] at hx
    have := hd x hx
    simp only [List.length_nil]
    omega
  · show List.Chain' (· < ·) (dispatchedIds (s.log
      ++ s.queue.map (fun y => Action.setException y abandonedExn)))
    rw [hdisp]
    exact hsorted
  · show flight (s.log ++ s.queue.map (fun y => Action.setException y abandonedExn)) = 0
    rw [flight_append, hflight0, flight_map_setException]
    norm_num
  · show FlightBounded (s.log ++ s.queue.map (fun y => Action.setException y abandonedExn))
    refine flightBounded_append hbound ?_
    intro m
    rw [hflight0, flight_take_map_setException]
    omega
  · exact fun x hx => Option.noConfusion hx

end Vaksi

namespace Vaksi

theorem inv_sequential {s : Chan} (hI : Inv s) : Inv (sequential s).2 := by
  rcases hsink : s.sink with _ | r0
  · rcases hqc : s.queue with _ | ⟨a, rest⟩
    · rw [sequential_of_sink_none_nil hsink hqc]
      exact inv_shape_fire_fresh hI hsink
    · rw [sequential_of_sink_none_cons hsink hqc]
      exact inv_shape_fire_next hI hsink hqc
  · rw [sequential_of_sink_some hsink]
    exact inv_shape_enqueue hI

theorem inv_collect_room_id {correct sender v : String} {s : Chan} (hI : Inv s) :
    Inv (collect_room_id correct sender v s) := by
  by_cases hsend : sender = correct
  · subst hsend
    rcases hsink : s.sink with _ | r
    · rw [collect_room_id_no_sink hsink]
      exact hI
    · rcases hqc : s.queue with _ | ⟨a, rest⟩
      · rw [collect_room_id_some_nil hsink hqc]
        exact inv_shape_resolve_nil hI hsink _ rfl rfl
      · rw [collect_room_id_some_cons hsink hqc]
        exact inv_shape_resolve_cons hI hsink hqc _ rfl rfl
  · rw [collect_room_id_wrong_sender hsend]
    exact hI

theorem inv_collect_error {correct sender reason : String} {s : Chan} (hI : Inv s) :
    Inv (collect_error correct sender reason s) := by
  by_cases hsend : sender = correct
  · subst hsend
    rcases hsink : s.sink with _ | r
    · rw [collect_error_no_sink hsink]
      exact hI
    · rcases hqc : s.queue with _ | ⟨a, rest⟩
      · rw [collect_error_some_nil hsink hqc]
        exact inv_shape_resolve_nil hI hsink _ rfl rfl
      · rw [collect_error_some_cons hsink hqc]
        exact inv_shape_resolve_cons hI hsink hqc _ rfl rfl
  · rw [collect_error_wrong_sender hsend]
    exact hI

theorem inv_observe_error {correct sender body : String} {s : Chan} (hI : Inv s) :
    Inv (observe_error correct sender body s) := by
  unfold observe_error
  rcases collect_error_match body with _ | reason
  · exact hI
  · exact inv_collect_error hI

theorem inv_observe {correct sender body : String} {s : Chan} (hI : Inv s) :
    Inv (observe correct sender body s) := by
  unfold observe
  rcases collect_room_id_match body with _ | v
  · exact inv_observe_error hI
  · exact inv_collect_room_id (inv_observe_error hI)

theorem inv_panic_flush {s : Chan} (hI : Inv s) : Inv (panic_flush s) := by
  rcases hsink : s.sink with _ | r
  · rw [panic_flush_of_sink_none hsink]
    exact inv_shape_flush_none hI hsink
  · rw [panic_flush_of_sink_some hsink]
    exact inv_shape_flush_some hI hsink

theorem inv_step (correct : String) {s : Chan} (hI : Inv s) (e : Event) :
    Inv (step correct s e) := by
  cases e with
  | submit => exact inv_sequential hI
  | reply sender body => exact inv_observe hI
  | timeout => exact inv_panic_flush hI

theorem inv_foldl (correct : String) (evs : List Event) {s : Chan} (hI : Inv s) :
    Inv (List.foldl (step correct) s evs) := by
  induction evs generalizing s with
  | nil => exact hI
  | cons e es ih => exact ih (inv_step correct hI e)

/-- Every state reachable from `init` satisfies the invariant. -/
theorem inv_run (correct : String) (evs : List Event) : Inv (run correct evs) :=
  inv_foldl correct evs inv_init

end Vaksi

namespace Vaksi

/-- The ids dispatched so far are exactly the ids created so far except
those still queued, i.e. `0, 1, ..., next - queue.length - 1` in
order.  This holds along timeout-free traces (a flush abandons queued
ids, which are then never dispatched). -/
def DispAll (s : Chan) : Prop :=
  dispatchedIds s.log = List.range (s.next - s.queue.length)

theorem dispAll_init : DispAll init := by
  unfold DispAll
  rfl

theorem dispAll_sequential {s : Chan} (hI : Inv s) (hD : DispAll s) :
    DispAll (sequential s).2 := by
  unfold DispAll at *
  rcases hsink : s.sink with _ | r0
  · rcases hqc : s.queue with _ | ⟨a, rest⟩
    · rw [sequential_of_sink_none_nil hsink hqc]
      have hD' : dispatchedIds s.log = List.range s.next := by
        rw [hD, hqc]
        simp
      show dispatchedIds (s.log ++ [Action.dispatch s.next])
        = List.range (s.next + 1 - List.length ([] : List Nat))
      rw [dispatchedIds_append, hD']
      simp [List.range_succ, dispatchedIds]
    · rw [sequential_of_sink_none_cons hsink hqc]
      have hlen : s.queue.length = rest.length + 1 := by rw [hqc]; rfl
      have hqle := hI.hqle
      rw [hlen] at hqle
      have hq := hI.hq
      rw [hlen] at hq
      rw [hqc] at hq
      rw [List.range'_succ] at hq
      injection hq with ha hrest
      show dispatchedIds (s.log ++ [Action.dispatch a])
        = List.range (s.next + 1 - (rest ++ [s.next]).length)
      rw [dispatchedIds_append, hD, hlen, List.length_append, List.length_singleton,
        show dispatchedIds [Action.dispatch a] = [a] from rfl, ha,
        show s.next + 1 - (rest.length + 1) = (s.next - (rest.length + 1)) + 1 from by omega,
        List.range_succ]
  · rw [sequential_of_sink_some hsink]
    show dispatchedIds s.log = List.range (s.next + 1 - (s.queue ++ [s.next]).length)
    rw [hD]
    congr 1
    rw [List.length_append, List.length_singleton]
    omega

theorem dispAll_collect_room_id {correct sender v : String} {s : Chan} (hI : Inv s)
    (hD : DispAll s) : DispAll (collect_room_id correct sender v s) := by
  unfold DispAll at *
  by_cases hsend : sender = correct
  · subst hsend
    rcases hsink : s.sink with _ | r
    · rw [collect_room_id_no_sink hsink]
      exact hD
    · rcases hqc : s.queue with _ | ⟨a, rest⟩
      · rw [collect_room_id_some_nil hsink hqc]
        show dispatchedIds (s.log ++ [Action.clear r, Action.setResult r v])
          = List.range (s.next - s.queue.length)
        rw [dispatchedIds_append, hD]
        simp [dispatchedIds]
      · rw [collect_room_id_some_cons hsink hqc]
        have hlen : s.queue.length = rest.length + 1 := by rw [hqc]; rfl
        have hqle := hI.hqle
        rw [hlen] at hqle
        have hq := hI.hq
        rw [hlen] at hq
        rw [hqc] at hq
        rw [List.range'_succ] at hq
        injection hq with ha hrest
        show dispatchedIds (s.log ++ [Action.clear r, Action.dispatch a, Action.setResult r v])
          = List.range (s.next - rest.length)
        rw [dispatchedIds_append, hD, hlen,
          show dispatchedIds [Action.clear r, Action.dispatch a, Action.setResult r v]
            = [a] from rfl, ha,
          show s.next - rest.length = (s.next - (rest.length + 1)) + 1 from by omega,
          List.range_succ]
  · rw [collect_room_id_wrong_sender hsend]
    exact hD

theorem dispAll_collect_error {correct sender reason : String} {s : Chan} (hI : Inv s)
    (hD : DispAll s) : DispAll (collect_error correct sender reason s) := by
  unfold DispAll at *
  by_cases hsend : sender = correct
  · subst hsend
    rcases hsink : s.sink with _ | r
    · rw [collect_error_no_sink hsink]
      exact hD
    · rcases hqc : s.queue with _ | ⟨a, rest⟩
      · rw [collect_error_some_nil hsink hqc]
        show dispatchedIds (s.log
            ++ [Action.clear r, Action.setException r (Exn.slack reason)])
          = List.range (s.next - s.queue.length)
        rw [dispatchedIds_append, hD]
        simp [dispatchedIds]
      · rw [collect_error_some_cons hsink hqc]
        have hlen : s.queue.length = rest.length + 1 := by rw [hqc]; rfl
        have hqle := hI.hqle
        rw [hlen] at hqle
        have hq := hI.hq
        rw [hlen] at hq
        rw [hqc] at hq
        rw [List.range'_succ] at hq
        injection hq with ha hrest
        show dispatchedIds (s.log ++ [Action.clear r, Action.dispatch a,
            Action.setException r (Exn.slack reason)])
          = List.range (s.next - rest.length)
        rw [dispatchedIds_append, hD, hlen,
          show dispatchedIds [Action.clear r, Action.dispatch a,
            Action.setException r (Exn.slack reason)] = [a] from rfl, ha,
          show s.next - rest.length = (s.next - (rest.length + 1)) + 1 from by omega,
          List.range_succ]
  · rw [collect_error_wrong_sender hsend]
    exact hD

theorem dispAll_observe_error {correct sender body : String} {s : Chan} (hI : Inv s)
    (hD : DispAll s) : DispAll (observe_error correct sender body s) := by
  unfold observe_error
  rcases collect_error_match body with _ | reason
  · exact hD
  · exact dispAll_collect_error hI hD

theorem dispAll_observe {correct sender body : String} {s : Chan} (hI : Inv s)
    (hD : DispAll s) : DispAll (observe correct sender body s) := by
  unfold observe
  rcases collect_room_id_match body with _ | v
  · exact dispAll_observe_error hI hD
  · exact dispAll_collect_room_id (inv_observe_error hI) (dispAll_observe_error hI hD)

theorem dispAll_foldl (correct : String) (evs : List Event) {s : Chan} (hI : Inv s)
    (hD : DispAll s) (hnt : ∀ e ∈ evs, e ≠ Event.timeout) :
    DispAll (List.foldl (step correct) s evs) := by
  induction evs generalizing s with
  | nil => exact hD
  | cons e es ih =>
    have he : e ≠ Event.timeout := hnt e (List.mem_cons_self e es)
    have hs : DispAll (step correct s e) := by
      cases e with
      | submit => exact dispAll_sequential hI hD
      | reply sender body => exact dispAll_observe hI hD
      | timeout => exact absurd rfl he
    exact ih (inv_step correct hI e) hs (fun x hx => hnt x (List.mem_cons_of_mem _ hx))

theorem dispAll_run (correct : String) (evs : List Event)
    (hnt : ∀ e ∈ evs, e ≠ Event.timeout) : DispAll (run correct evs) :=
  dispAll_foldl correct evs inv_init dispAll_init hnt

theorem try_fire_next (s : Chan) : (try_fire s).next = s.next := by
  rcases hs : s.sink with _ | r
  · rcases hq : s.queue with _ | ⟨a, rest⟩ <;> simp [try_fire, hs, hq]
  · simp [try_fire, hs]

theorem sequential_next (s : Chan) : (sequential s).2.next = s.next + 1 := by
  unfold sequential
  rw [try_fire_next]

theorem match_request_next (correct sender : String) (s : Chan) :
    (match_request correct sender s).2.next = s.next := by
  unfold match_request
  by_cases h : sender ≠ correct
  · simp [h]
  · rcases hs : s.sink with _ | r <;> simp [h, hs, try_fire_next]

theorem collect_room_id_next (correct sender v : String) (s : Chan) :
    (collect_room_id correct sender v s).next = s.next := by
  unfold collect_room_id
  rcases hm : match_request correct sender s with ⟨o, s1⟩
  have h1 : s1.next = s.next := by
    rw [← match_request_next correct sender s, hm]
  rcases o with _ | r <;> simpa using h1

theorem collect_error_next (correct sender reason : String) (s : Chan) :
    (collect_error correct sender reason s).next = s.next := by
  unfold collect_error
  rcases hm : match_request correct sender s with ⟨o, s1⟩
  have h1 : s1.next = s.next := by
    rw [← match_request_next correct sender s, hm]
  rcases o with _ | r <;> simpa using h1

theorem observe_next (correct sender body : String) (s : Chan) :
    (observe correct sender body s).next = s.next := by
  unfold observe observe_error
  rcases collect_error_match body with _ | reason <;>
    rcases collect_room_id_match body with _ | v <;>
    simp [collect_room_id_next, collect_error_next]

theorem step_next (correct : String) (s : Chan) (e : Event) :
    (step correct s e).next = s.next + submitCount [e] := by
  cases e with
  | submit =>
    show (sequential s).2.next = s.next + submitCount [Event.submit]
    rw [sequential_next]
    rfl
  | reply sender body =>
    show (observe correct sender body s).next = s.next + submitCount [Event.reply sender body]
    rw [observe_next]
    rfl
  | timeout =>
    show (panic_flush s).next = s.next + submitCount [Event.timeout]
    rfl

theorem foldl_next (correct : String) (evs : List Event) (s : Chan) :
    (List.foldl (step correct) s evs).next = s.next + submitCount evs := by
  induction evs generalizing s with
  | nil => rfl
  | cons e es ih =>
    rw [List.foldl_cons, ih, step_next]
    cases e <;> simp only [submitCount] <;> omega

/-- After any trace, `next` equals the number of submissions. -/
theorem run_next (correct : String) (evs : List Event) :
    (run correct evs).next = submitCount evs := by
  have h := foldl_next correct evs init
  simpa [run, init] using h

end Vaksi

namespace Vaksi

/-- C1: along every event trace on one channel, every prefix of the
side-effect log has at most one request in flight (`try_fire` is a
no-op while the sink is occupied, stated as the third conjunct);
requests are dispatched in strictly increasing creation order, i.e.
FIFO submission order; and on a timeout-free trace that drains the
queue, exactly `N` dispatch actions occur for `N` submissions, in
submission order `0, 1, ..., N-1`. -/
theorem submit_fifo_single_inflight (correct : String) (evs : List Event) :
    (∀ n, flight ((run correct evs).log.take n) ≤ 1)
  ∧ List.Chain' (· < ·) (dispatchedIds (run correct evs).log)
  ∧ (∀ t : Chan, t.sink.isSome → try_fire t = t)
  ∧ ((∀ e ∈ evs, e ≠ Event.timeout) → (run correct evs).queue = [] →
      dispatchedIds (run correct evs).log = List.range (submitCount evs)) := by
  obtain ⟨hq, hqle, hd, hsorted, hflight, hbound, hslt⟩ := inv_run correct evs
  refine ⟨hbound, hsorted, ?_, ?_⟩
  · intro t ht
    rcases hs : t.sink with _ | r
    · rw [hs] at ht
      cases ht
    · exact try_fire_of_sink_some hs
  · intro hnt hqnil
    have hD := dispAll_run correct evs hnt
    unfold DispAll at hD
    rw [hD, hqnil, run_next]
    simp

/-- Witness for C1: two submissions followed by two replies from the
trusted sender give exactly the dispatch sequence `[0, 1]`. -/
theorem submit_fifo_single_inflight_witness :
    dispatchedIds (run "bot" [Event.submit, Event.submit,
        Event.reply "bot" "chat with bob (!a:x)",
        Event.reply "bot" "chat with bob (!b:x)"]).log = List.range 2 :=
  (submit_fifo_single_inflight "bot" [Event.submit, Event.submit,
    Event.reply "bot" "chat with bob (!a:x)",
    Event.reply "bot" "chat with bob (!b:x)"]).2.2.2 (by decide) (by decide)

end Vaksi

namespace Vaksi

/-- Position in the log of the first action that resolves request `r`'s
future (a `set_result` or `set_exception` call on it). -/
def settleIdx (l : List Action) (r : Nat) : Nat :=
  l.findIdx (fun a => match a with
    | Action.setResult x _ => x == r
    | Action.setException x _ => x == r
    | _ => false)

/-- Position in the log of the first `create_task` for request `r`. -/
def dispatchIdx (l : List Action) (r : Nat) : Nat :=
  l.findIdx (fun a => match a with
    | Action.dispatch x => x == r
    | _ => false)

/-- Helper: a reply observed while no sink is set changes nothing,
whatever the message body matches. -/
theorem observe_no_sink (correct sender body : String) (s : Chan)
    (h : s.sink = none) : observe correct sender body s = s := by
  have he : ∀ reason, collect_error correct sender reason s = s :=
    fun _ => collect_error_no_sink h
  have hv : ∀ v, collect_room_id correct sender v s = s :=
    fun _ => collect_room_id_no_sink h
  unfold observe observe_error
  rcases collect_error_match body with _ | reason <;>
    rcases collect_room_id_match body with _ | v <;> simp [he, hv]

/-- C2 counterexample: with request 0 in flight and request 1 queued, a
matching reply produces the log `[dispatch 0, clear 0, dispatch 1,
setResult 0]`: the dispatch of request 1 happens strictly before the
resolution of request 0, contradicting the claimed order (set the
handle, clear the slot, then dispatch). -/
theorem resolve_order_counterexample :
    (run "bot" [Event.submit, Event.submit, Event.reply "bot" "chat with bob (!a:x)"]).log
      = [Action.dispatch 0, Action.clear 0, Action.dispatch 1, Action.setResult 0 "!a:x"]
  ∧ dispatchIdx (run "bot" [Event.submit, Event.submit,
      Event.reply "bot" "chat with bob (!a:x)"]).log 1
    < settleIdx (run "bot" [Event.submit, Event.submit,
      Event.reply "bot" "chat with bob (!a:x)"]).log 0 := by
  decide

/-- C2 amended: a matching reply for the in-flight request `r` first
clears the active slot, then `try_fire` dispatches the next queued
request, and only then is `r`'s completion handle set: the three side
effects are appended in exactly that order within one handler
invocation. -/
theorem resolve_order_amended (correct v : String) (s : Chan) (r a : Nat)
    (rest : List Nat) (hs : s.sink = some r) (hq : s.queue = a :: rest) :
    collect_room_id correct correct v s =
      { queue := rest, sink := some a, next := s.next,
        log := s.log ++ [Action.clear r, Action.dispatch a, Action.setResult r v] } :=
  collect_room_id_some_cons hs hq

/-- Witness for C2's amended theorem at a concrete state. -/
theorem resolve_order_amended_witness :
    collect_room_id "bot" "bot" "!a:x" (Chan.mk [1] (some 0) 2 [Action.dispatch 0]) =
      Chan.mk [] (some 1) 2 [Action.dispatch 0, Action.clear 0, Action.dispatch 1,
        Action.setResult 0 "!a:x"] :=
  resolve_order_amended "bot" "!a:x" (Chan.mk [1] (some 0) 2 [Action.dispatch 0]) 0 1 [] rfl rfl

/-- C3: in any state satisfying the channel invariant, when the await
of the dispatched (in-flight) request `K` times out, the caller
receives `BotException("Timeout while communicating
with the bot")`; `panic_flush` clears the active slot and drains the
queue, resolving every queued request with the distinct abandonment
error, while the flush itself never resolves `K`'s own handle; and a
subsequent `sequential` call finds an empty queue and dispatches
immediately. -/
theorem timeout_panic_flush_spec (s : Chan) (K : Nat) (hI : Inv s)
    (hK : s.sink = some K) :
    (open_slack_pm_on_timeout s).2 = Exn.bot "Timeout while communicating with the bot"
  ∧ (open_slack_pm_on_timeout s).1.queue = []
  ∧ (open_slack_pm_on_timeout s).1.sink = none
  ∧ (open_slack_pm_on_timeout s).1.log
      = s.log ++ [Action.clear K] ++ s.queue.map (fun x => Action.setException x abandonedExn)
  ∧ (∀ x ∈ s.queue, Action.setException x abandonedExn ∈ (open_slack_pm_on_timeout s).1.log)
  ∧ (∀ v, Action.setResult K v
      ∉ [Action.clear K] ++ s.queue.map (fun x => Action.setException x abandonedExn))
  ∧ (∀ e, Action.setException K e
      ∉ [Action.clear K] ++ s.queue.map (fun x => Action.setException x abandonedExn))
  ∧ (sequential (open_slack_pm_on_timeout s).1).2.queue = []
  ∧ (sequential (open_slack_pm_on_timeout s).1).2.sink = some (open_slack_pm_on_timeout s).1.next := by
  have hKq : K ∉ s.queue := by
    intro hmem
    have h1 := hI.hslt K hK
    have h2 := hI.hq
    rw [h2, List.mem_range'_1] at hmem
    omega
  have hfl : (open_slack_pm_on_timeout s).1 = panic_flush s := rfl
  rw [hfl, panic_flush_of_sink_some hK]
  refine ⟨rfl, rfl, rfl, rfl, ?_, ?_, ?_, ?_, ?_⟩
  · intro x hx
    exact List.mem_append.2 (Or.inr (List.mem_map_of_mem _ hx))
  · intro v hv
    rcases List.mem_append.1 hv with h1 | h1
    · simp at h1
    · rcases List.mem_map.1 h1 with ⟨x, _, hxe⟩
      cases hxe
  · intro e he
    rcases List.mem_append.1 he with h1 | h1
    · simp at h1
    · rcases List.mem_map.1 h1 with ⟨x, hx, hxe⟩
      injection hxe with hx1 hx2
      exact hKq (hx1 ▸ hx)
  · rw [sequential_of_sink_none_nil rfl rfl]
  · rw [sequential_of_sink_none_nil rfl rfl]

/-- Witness for C3: after three submissions, request 0 is in flight and
requests 1, 2 are queued; a timeout drains the queue. -/
theorem timeout_panic_flush_spec_witness :
    (run "bot" [Event.submit, Event.submit, Event.submit]).sink = some 0
  ∧ (open_slack_pm_on_timeout
      (run "bot" [Event.submit, Event.submit, Event.submit])).1.queue = [] :=
  ⟨by decide,
    (timeout_panic_flush_spec (run "bot" [Event.submit, Event.submit, Event.submit]) 0
      (inv_run "bot" [Event.submit, Event.submit, Event.submit]) (by decide)).2.1⟩

/-- C4 counterexample: after `submit, submit, reply`, request 1 has
been dispatched and occupies the slot; a second matching reply for the
same (already resolved) slot is not a no-op: it mutates the state and
resolves request 1's handle with the duplicated payload. -/
theorem double_reply_counterexample :
    observe "bot" "bot" "chat with bob (!a:x)"
        (run "bot" [Event.submit, Event.submit, Event.reply "bot" "chat with bob (!a:x)"])
      ≠ run "bot" [Event.submit, Event.submit, Event.reply "bot" "chat with bob (!a:x)"]
  ∧ Action.setResult 1 "!a:x" ∈ (observe "bot" "bot" "chat with bob (!a:x)"
      (run "bot" [Event.submit, Event.submit, Event.reply "bot" "chat with bob (!a:x)"])).log
  ∧ Action.setResult 1 "!a:x" ∉ (run "bot" [Event.submit, Event.submit,
      Event.reply "bot" "chat with bob (!a:x)"]).log := by
  decide

/-- C4 amended: the second of two matching replies is a no-op exactly
when the first left the slot empty, i.e. when no further request was
queued behind the resolved one; in that case it resolves no handle,
mutates nothing and raises nothing.  (If another request was queued,
the first reply dispatched it into the slot and the second reply
resolves that request instead, as the counterexample shows.) -/
theorem double_reply_second_noop (correct v body2 : String) (s : Chan) (r : Nat)
    (hs : s.sink = some r) (hq : s.queue = []) :
    observe correct correct body2 (collect_room_id correct correct v s)
      = collect_room_id correct correct v s := by
  apply observe_no_sink
  rw [collect_room_id_some_nil hs hq]

/-- Witness for C4's amended theorem at a concrete state. -/
theorem double_reply_second_noop_witness :
    observe "bot" "bot" "chat with bob (!b:x)"
      (collect_room_id "bot" "bot" "!a:x" (Chan.mk [] (some 0) 1 []))
    = collect_room_id "bot" "bot" "!a:x" (Chan.mk [] (some 0) 1 []) :=
  double_reply_second_noop "bot" "!a:x" "chat with bob (!b:x)" (Chan.mk [] (some 0) 1 []) 0
    rfl rfl

end Vaksi

namespace Vaksi

/-- C5: at the web boundary the three failure modes stay mutually
distinguishable: the timeout error raised by `open_slack_pm`, the
abandonment error set by `panic_flush` (both `BotException`s with
distinct fixed messages, tagged source `bot`) and a remote-reported
`SlackException` (tagged source `slack`) always map to pairwise
different `error`/`source` response bodies. -/
theorem error_kinds_distinguishable (s : Chan) (reason : String) :
    exn_error_response (open_slack_pm_on_timeout s).2 ≠ exn_error_response abandonedExn
  ∧ exn_error_response (open_slack_pm_on_timeout s).2 ≠ exn_error_response (Exn.slack reason)
  ∧ exn_error_response abandonedExn ≠ exn_error_response (Exn.slack reason) := by
  refine ⟨?_, ?_, ?_⟩
  · intro h
    simp [open_slack_pm_on_timeout, exn_error_response, abandonedExn] at h
  · intro h
    simp [open_slack_pm_on_timeout, exn_error_response] at h
  · intro h
    simp [exn_error_response, abandonedExn] at h

/-- C6 counterexample: the body `Failed to start chat with bob: oops
(!r2:x)` matches both patterns; with request 0 in flight and request 1
queued, delivering it fires both handlers: `collect_error` resolves
request 0 with the failure and `try_fire` dispatches request 1, after
which `collect_room_id` resolves request 1 with the id captured from
the same message — so two rules fire and the success rule does resolve
a handle. -/
theorem matcher_precedence_counterexample :
    collect_error_match "Failed to start chat with bob: oops (!r2:x)" = some "oops (!r2:x)"
  ∧ collect_room_id_match "Failed to start chat with bob: oops (!r2:x)" = some "!r2:x"
  ∧ Action.setException 0 (Exn.slack "oops (!r2:x)")
      ∈ (run "bot" [Event.submit, Event.submit,
          Event.reply "bot" "Failed to start chat with bob: oops (!r2:x)"]).log
  ∧ Action.setResult 1 "!r2:x"
      ∈ (run "bot" [Event.submit, Event.submit,
          Event.reply "bot" "Failed to start chat with bob: oops (!r2:x)"]).log := by
  decide

/-- C6 amended: on a message matching both patterns both handlers are
invoked, the error handler first (declaration order); the in-flight
request's handle receives the failure; and the success handler
resolves nothing exactly when no further request was queued, in which
case the final state carries only the error resolution. -/
theorem matcher_both_fire_error_first (correct e v body : String) (s : Chan) (r : Nat)
    (hE : collect_error_match body = some e) (hV : collect_room_id_match body = some v)
    (hs : s.sink = some r) (hq : s.queue = []) :
    observe correct correct body s =
      { s with sink := none,
               log := s.log ++ [Action.clear r, Action.setException r (Exn.slack e)] } := by
  unfold observe observe_error
  simp only [hE, hV]
  rw [collect_error_some_nil hs hq, collect_room_id_no_sink rfl]

/-- Witness for C6's amended theorem at a concrete state. -/
theorem matcher_both_fire_error_first_witness :
    observe "bot" "bot" "Failed to start chat with bob: oops (!r2:x)"
        (Chan.mk [] (some 0) 1 [])
      = Chan.mk [] none 1 [Action.clear 0, Action.setException 0 (Exn.slack "oops (!r2:x)")] :=
  matcher_both_fire_error_first "bot" "oops (!r2:x)" "!r2:x"
    "Failed to start chat with bob: oops (!r2:x)" (Chan.mk [] (some 0) 1 []) 0
    (by decide) (by decide) rfl rfl

/-- C7: a message from any sender other than the configured bridge
user changes nothing, even if its body matches a success or error
pattern: no future is resolved and queue, sink, next and log are
untouched. -/
theorem untrusted_sender_no_effect (correct sender body : String) (s : Chan)
    (h : sender ≠ correct) : observe correct sender body s = s := by
  have he : ∀ reason, collect_error correct sender reason s = s :=
    fun reason => collect_error_wrong_sender h reason s
  have hv : ∀ v, collect_room_id correct sender v s = s :=
    fun v => collect_room_id_wrong_sender h v s
  unfold observe observe_error
  rcases collect_error_match body with _ | reason <;>
    rcases collect_room_id_match body with _ | v <;> simp [he, hv]

/-- Witness for C7: an untrusted sender's success-shaped message leaves
an occupied state untouched. -/
theorem untrusted_sender_no_effect_witness :
    observe "bot" "evil" "chat with bob (!a:x)" (Chan.mk [1] (some 0) 2 [Action.dispatch 0])
      = Chan.mk [1] (some 0) 2 [Action.dispatch 0] :=
  untrusted_sender_no_effect "bot" "evil" "chat with bob (!a:x)"
    (Chan.mk [1] (some 0) 2 [Action.dispatch 0]) (by decide)

/-- C8 counterexample: with a direct room with the bridge bot already
recorded in `m.direct`, `open_slack_pm` does not short-circuit: it
still submits the correlated start-chat command. -/
theorem open_pm_no_shortcircuit_counterexample :
    find_matrix_pm [("@slackbot:example.org", ["!pm:example.org"])] "@slackbot:example.org"
      = some "!pm:example.org"
  ∧ plan_submits (open_slack_pm_plan [("@slackbot:example.org", ["!pm:example.org"])]
      "@slackbot:example.org" "U123") = true := by
  decide

/-- C8 amended: `open_slack_pm` first looks up the existing direct room
with the configured bridge bot; when none exists it fails with
`BotException("No PM open with the Slack bot")` without reaching
`sequential`; when one exists it does not short-circuit but uses that
room as the target and submits the command `!slack start-chat <id>`
for correlation and a timed await. -/
theorem open_pm_plan_spec (all_dms : List (String × List String)) (bot slack_id : String) :
    (find_matrix_pm all_dms bot = none →
      open_slack_pm_plan all_dms bot slack_id
          = PmPlan.noPmFailure (Exn.bot "No PM open with the Slack bot")
        ∧ plan_submits (open_slack_pm_plan all_dms bot slack_id) = false)
  ∧ (∀ room, find_matrix_pm all_dms bot = some room →
      open_slack_pm_plan all_dms bot slack_id
        = PmPlan.submitAndAwait room ("!slack start-chat " ++ slack_id)) := by
  constructor
  · intro h
    unfold open_slack_pm_plan
    rw [h]
    exact ⟨rfl, rfl⟩
  · intro room h
    unfold open_slack_pm_plan
    rw [h]

/-- Witness for C8's amended theorem. -/
theorem open_pm_plan_spec_witness :
    find_matrix_pm [("@slackbot:example.org", ["!pm:example.org"])] "@slackbot:example.org"
      = some "!pm:example.org"
  ∧ open_slack_pm_plan [("@slackbot:example.org", ["!pm:example.org"])]
      "@slackbot:example.org" "U123"
      = PmPlan.submitAndAwait "!pm:example.org" ("!slack start-chat " ++ "U123") :=
  ⟨by decide, (open_pm_plan_spec [("@slackbot:example.org", ["!pm:example.org"])]
      "@slackbot:example.org" "U123").2 "!pm:example.org" (by decide)⟩

/-- C9 counterexample: on success the POST endpoint's body has the two
keys `room` and `event`, not the claimed single-key shape. -/
theorem web_pm_success_shape_counterexample :
    (web_slack_pm_response (Except.ok ("!r:x", "$ev"))).map Prod.fst = ["room", "event"]
  ∧ (web_slack_pm_response (Except.ok ("!r:x", "$ev"))).map Prod.fst ≠ ["room"] := by
  decide

/-- C9 amended: the GET endpoint returns `{"room": id}` on success and
the POST endpoint `{"room": id, "event": event_id}`; on failure both
return `{"error": message, "source": tag}` where the tag is `matrix`
for the chat-transport error, `bot` for the plugin's own errors
(including the timeout and abandonment errors) and `slack` for the
remote counterpart's reported failure. -/
theorem web_response_shapes (room event msg : String) :
    web_slack_find_pm_response (Except.ok room) = [("room", room)]
  ∧ web_slack_pm_response (Except.ok (room, event)) = [("room", room), ("event", event)]
  ∧ (∀ e : Exn, web_slack_find_pm_response (Except.error e)
      = [("error", exn_message e), ("source", exn_source e)])
  ∧ (∀ e : Exn, web_slack_pm_response (Except.error e)
      = [("error", exn_message e), ("source", exn_source e)])
  ∧ exn_source (Exn.bot msg) = "bot"
  ∧ exn_source (Exn.matrix msg) = "matrix"
  ∧ exn_source (Exn.slack msg) = "slack"
  ∧ exn_source (open_slack_pm_on_timeout (Chan.mk [] none 0 [])).2 = "bot"
  ∧ exn_source abandonedExn = "bot" := by
  refine ⟨rfl, rfl, ?_, ?_, rfl, rfl, rfl, rfl, rfl⟩ <;> (intro e; cases e <;> rfl)

/-- C10: `auth` accepts exactly when the authorization header is
present, the configured token list is non-empty and the header value
is one of the tokens; with no tokens configured every request is
rejected whatever the header; and a rejected request returns the error
response without running the handler body, leaving the channel state
unchanged. -/
theorem auth_accept_iff (key : Option String) (valids : List String) (s : Chan)
    (handler : Chan → Chan × List (String × String)) :
    (auth key valids = none ↔ ∃ k, key = some k ∧ valids ≠ [] ∧ k ∈ valids)
  ∧ (valids = [] → auth key valids ≠ none)
  ∧ (∀ e, auth key valids = some e →
      web_guarded key valids s handler = (s, exn_error_response e)) := by
  refine ⟨?_, ?_, ?_⟩
  · constructor
    · intro h
      rcases key with _ | k
      · simp [auth] at h
      · rcases valids with _ | ⟨t, ts⟩
        · simp [auth] at h
        · by_cases hk : k ∈ t :: ts
          · exact ⟨k, rfl, by simp, hk⟩
          · simp [auth, hk] at h
    · rintro ⟨k, rfl, hne, hk⟩
      rcases valids with _ | ⟨t, ts⟩
      · exact absurd rfl hne
      · simp [auth, hk]
  · intro hv
    subst hv
    rcases key with _ | k <;> simp [auth]
  · intro e he
    unfold web_guarded
    rw [he]

/-- Witness for C10: a configured token authenticates; a missing
header is rejected with the state unchanged. -/
theorem auth_accept_iff_witness :
    auth (some "t1") ["t1", "t2"] = none
  ∧ web_guarded none ["t1"] (Chan.mk [] none 0 []) (fun s => (s, []))
      = (Chan.mk [] none 0 [], exn_error_response (Exn.bot "Authorization header missing")) :=
  ⟨(auth_accept_iff (some "t1") ["t1", "t2"] (Chan.mk [] none 0 [])
      (fun s => (s, []))).1.mpr ⟨"t1", rfl, by decide, by decide⟩,
   (auth_accept_iff none ["t1"] (Chan.mk [] none 0 [])
      (fun s => (s, []))).2.2 (Exn.bot "Authorization header missing") (by decide)⟩

end Vaksi
